import Mathlib

/-!
Shallow embedding of the trivia API backend (`backend/flaskr/__init__.py`).

Each Flask route handler becomes a pure Lean function from the database
state (a list of `Question` rows and a list of `Category` rows) and the
decoded request data to a response value.  Aborting with an HTTP status
code is modelled by `Resp.err`; a JSON success payload by `Resp.ok`.
Randomness (`random.choice`) is modelled by an extra index argument, and
persistence failures (exceptions raised by commit/insert) by an extra
boolean argument.
-/

namespace Trivia

/-- A row of the questions table.  As in `models.py`, `category` is stored
as text holding a category id, and `difficulty` is an integer. -/
structure Question where
  id : Nat
  question : String
  answer : String
  category : String
  difficulty : Int
  deriving DecidableEq, Repr

/-- A row of the categories table. -/
structure Category where
  id : Nat
  type : String
  deriving DecidableEq, Repr

/-- Modelled from the spec: the JSON shape produced by `Question.format`
in `models.py`, which is not under `src/`.  The spec gives the Question
JSON shape as the five fields id, question, answer, category, difficulty. -/
structure QJson where
  id : Nat
  question : String
  answer : String
  category : String
  difficulty : Int
  deriving DecidableEq, Repr

/-- Modelled from the spec: `Question.format` serializes a row into its
JSON shape, field for field. -/
def Question.format (q : Question) : QJson :=
  ⟨q.id, q.question, q.answer, q.category, q.difficulty⟩

/-- An endpoint outcome: either an HTTP error status produced by `abort`,
or a success payload. -/
inductive Resp (α : Type) where
  | err (code : Nat)
  | ok (payload : α)
  deriving DecidableEq, Repr

def QUESTIONS_PER_PAGE : Nat := 10

/-- Resolve one endpoint of a Python slice `l[a:b]` on a list of length
`n`: a negative index counts from the end, and the result is clamped
into `[0, n]`. -/
def pyIndex (n : Nat) (i : Int) : Nat :=
  (min (n : Int) (max 0 (if i < 0 then (n : Int) + i else i))).toNat

/-- Python's `l[a:b]` (step 1). -/
def pySlice (l : List α) (a b : Int) : List α :=
  (l.drop (pyIndex l.length a)).take (pyIndex l.length b - pyIndex l.length a)

/-- `paginate_questions`: `page` is the `page` query parameter (`none`
when absent, defaulting to 1), and the result is
`[q.format() for q in selection][start:end]` with
`start = (page-1)*QUESTIONS_PER_PAGE` and `end = start + QUESTIONS_PER_PAGE`. -/
def paginate_questions (pageParam : Option Int) (selection : List Question) : List QJson :=
  pySlice (selection.map Question.format)
    ((pageParam.getD 1 - 1) * (QUESTIONS_PER_PAGE : Int))
    ((pageParam.getD 1 - 1) * (QUESTIONS_PER_PAGE : Int) + (QUESTIONS_PER_PAGE : Int))

/-- `Question.query.order_by(Question.id).all()`. -/
def sortById (db : List Question) : List Question :=
  List.insertionSort (fun a b => a.id ≤ b.id) db

/-- The success payload of `GET /questions`. -/
structure QuestionsPage where
  questions : List QJson
  total_questions : Nat
  categories : List (Nat × String)
  current_category : Option Nat
  deriving DecidableEq, Repr

/-- `GET /questions`: order all questions by id, paginate, 404 when the
page is empty, else return the page, the unpaginated total, the category
id-to-type mapping and a null current category. -/
def get_questions (db : List Question) (cats : List Category)
    (pageParam : Option Int) : Resp QuestionsPage :=
  if (paginate_questions pageParam (sortById db)).length = 0 then .err 404
  else .ok ⟨paginate_questions pageParam (sortById db), (sortById db).length,
    cats.map (fun c => (c.id, c.type)), none⟩

/-- `DELETE /questions/(id)`: look the row up by primary key; 404 when
absent; otherwise delete and commit, answering with the deleted id, and
on a commit failure roll back (leaving the state unchanged) and 422.
The result pairs the response with the database state afterwards. -/
def delete_question (db : List Question) (question_id : Nat)
    (commitFails : Bool) : Resp Nat × List Question :=
  match db.find? (fun q => q.id == question_id) with
  | none => (.err 404, db)
  | some _ =>
      if commitFails then (.err 422, db)
      else (.ok question_id, db.filter (fun q => !(q.id == question_id)))

/-- The decoded JSON body of `POST /questions`: each field is `none` when
the key is absent (`data.get` returns `None`). -/
structure CreateBody where
  question : Option String
  answer : Option String
  category : Option String
  difficulty : Option Int
  deriving DecidableEq, Repr

/-- Python truthiness of an optional string: `None` and the empty string
are falsy. -/
def truthyStr : Option String → Bool
  | none => false
  | some s => !(s == "")

/-- Python truthiness of an optional integer: `None` and `0` are falsy. -/
def truthyInt : Option Int → Bool
  | none => false
  | some n => !(n == 0)

/-- `POST /questions`: 422 unless all four fields are present and truthy;
otherwise insert the new row (its id generated by the database, here the
`newId` argument) and answer with the new id; an insert failure gives 422.
The result pairs the response with the database state afterwards. -/
def create_question (db : List Question) (newId : Nat) (insertFails : Bool)
    (body : CreateBody) : Resp Nat × List Question :=
  if !(truthyStr body.question && truthyStr body.answer
        && truthyStr body.category && truthyInt body.difficulty) then
    (.err 422, db)
  else if insertFails then (.err 422, db)
  else
    (.ok newId, db ++ [⟨newId, body.question.getD "", body.answer.getD "",
      body.category.getD "", body.difficulty.getD 0⟩])

/-- SQL `LIKE`/`ILIKE` pattern matching on character lists: `%` matches
any sequence, `_` any single character, and any other pattern character
matches case-insensitively (both sides lowered, as `ILIKE` does). -/
def likeMatch : List Char → List Char → Bool
  | [], t => t.isEmpty
  | p :: ps, t =>
      if p = '%' then t.tails.any (fun t2 => likeMatch ps t2)
      else
        match t with
        | [] => false
        | c :: ts =>
            (if p = '_' then true else Char.toLower p == Char.toLower c)
              && likeMatch ps ts

/-- The success payload of `POST /questions/search`. -/
structure SearchResult where
  questions : List QJson
  total_questions : Nat
  deriving DecidableEq, Repr

/-- `POST /questions/search`: `searchTerm` defaults to the empty string
when the key is absent; the rows kept are those whose question text
matches `ILIKE` against the pattern percent-term-percent; the endpoint
always succeeds, returning all matches (unpaginated) and their count. -/
def search_questions (db : List Question) (searchTerm : Option String) : SearchResult :=
  ⟨(db.filter (fun q =>
      likeMatch ('%' :: (searchTerm.getD "").data ++ ['%']) q.question.data)).map
        Question.format,
   (db.filter (fun q =>
      likeMatch ('%' :: (searchTerm.getD "").data ++ ['%']) q.question.data)).length⟩

/-- The success payload of `GET /categories/(id)/questions`. -/
structure CategoryQuestions where
  questions : List QJson
  total_questions : Nat
  current_category : Nat
  deriving DecidableEq, Repr

/-- `GET /categories/(id)/questions`: keep the questions whose `category`
text equals the stringified id; 404 when there are none, else return the
matches, their count and the requested id as current category. -/
def get_questions_by_category (db : List Question) (category_id : Nat) :
    Resp CategoryQuestions :=
  if (db.filter (fun q => q.category == toString category_id)).length = 0 then
    .err 404
  else
    .ok ⟨(db.filter (fun q => q.category == toString category_id)).map Question.format,
      (db.filter (fun q => q.category == toString category_id)).length, category_id⟩

/-- The `quiz_category` value of a `POST /quizzes` body: absent key (the
`data.get` default `None`, so subscripting raises `TypeError`), a mapping
without an `id` key (subscripting raises `KeyError`), or a mapping with an
integer id. -/
inductive QuizCategoryField where
  | absent
  | noId
  | withId (id : Int)
  deriving DecidableEq, Repr

/-- `random.choice` on a list, the choice determined by the extra index
`k`; `none` exactly when the list is empty. -/
def pickRandom (l : List α) (k : Nat) : Option α := l[k % l.length]?

/-- `POST /quizzes`: a raising `quiz_category` access is caught by the
handler's `try` and turned into 422; a truthy `quiz_category['id']`
restricts candidates to that category; candidates always exclude the ids
in `previous_questions`; a random candidate is formatted, or the question
is null when no candidate remains, with success either way. -/
def play_quiz (db : List Question) (previous_questions : List Nat)
    (quiz_category : QuizCategoryField) (k : Nat) : Resp (Option QJson) :=
  match quiz_category with
  | .absent => .err 422
  | .noId => .err 422
  | .withId i =>
      .ok ((pickRandom
        (if i ≠ 0 then
          db.filter (fun q =>
            q.category == toString i && !(previous_questions.contains q.id))
         else db.filter (fun q => !(previous_questions.contains q.id))) k).map
        Question.format)

/-! ### Helper lemmas about pagination -/

theorem pyIndex_nonneg {n : Nat} {i : Int} (h : 0 ≤ i) : pyIndex n i = min n i.toNat := by
  unfold pyIndex
  rw [if_neg (by omega)]
  omega

theorem pySlice_nonneg (l : List α) (a b : Int) (h0 : 0 ≤ a) (hab : a ≤ b) :
    pySlice l a b = (l.drop a.toNat).take (b.toNat - a.toNat) := by
  unfold pySlice
  rw [pyIndex_nonneg h0, pyIndex_nonneg (le_trans h0 hab)]
  rcases le_or_lt l.length a.toNat with h | h
  · have h1 : min l.length a.toNat = l.length := by omega
    rw [h1, List.drop_length, List.drop_eq_nil_of_le h]
    simp
  · have h1 : min l.length a.toNat = a.toNat := by omega
    rw [h1]
    rcases le_or_lt b.toNat l.length with hb | hb
    · have h2 : min l.length b.toNat = b.toNat := by omega
      rw [h2]
    · have h2 : min l.length b.toNat = l.length := by omega
      rw [h2,
        List.take_of_length_le (by simp only [List.length_drop]; omega),
        List.take_of_length_le (by simp only [List.length_drop]; omega)]

instance : IsTotal Question (fun a b => a.id ≤ b.id) := ⟨fun a b => Nat.le_total a.id b.id⟩

instance : IsTrans Question (fun a b => a.id ≤ b.id) :=
  ⟨fun _ _ _ h h2 => Nat.le_trans h h2⟩

theorem sortById_sorted (db : List Question) :
    (sortById db).Pairwise (fun a b => a.id ≤ b.id) :=
  List.sorted_insertionSort _ db

theorem sortById_length (db : List Question) : (sortById db).length = db.length :=
  (List.perm_insertionSort _ db).length_eq

/-- A sample question row used by concrete witnesses. -/
def exQ (i : Nat) : Question := ⟨i, "q", "a", "1", 1⟩

/-- A sample database of eleven questions with ids 1..11. -/
def db11 : List Question := (List.range 11).map (fun i => exQ (i + 1))

/-- C6: for every selection and every 1-based page number (defaulting to 1
when the query parameter is absent), `paginate_questions` returns exactly
the slice of the formatted list from index (page-1)*10 up to but excluding
index page*10, i.e. drop (page-1)*10 then take 10. -/
theorem paginate_questions_is_slice (selection : List Question) (page : Int)
    (hp : 1 ≤ page) :
    paginate_questions (some page) selection
        = ((selection.map Question.format).drop (((page - 1) * 10).toNat)).take 10
      ∧ paginate_questions none selection = paginate_questions (some 1) selection := by
  constructor
  · unfold paginate_questions
    simp only [Option.getD_some, QUESTIONS_PER_PAGE, Nat.cast_ofNat]
    rw [pySlice_nonneg _ _ _ (by omega) (by omega)]
    congr 1
    omega
  · rfl

theorem paginate_questions_is_slice_witness :
    (1:Int) ≤ 2
      ∧ (paginate_questions (some 2) db11
            = ((db11.map Question.format).drop ((((2:Int) - 1) * 10).toNat)).take 10
          ∧ paginate_questions none db11 = paginate_questions (some 1) db11) :=
  ⟨by norm_num, paginate_questions_is_slice db11 2 (by norm_num)⟩

/-- C2 counterexample: with eleven questions in the database, page -1 does
not produce an empty slice (Python slicing wraps around:
`[start:end] = [-20:-10]` resolves to `[0:1]`), and `GET /questions?page=-1`
answers 200 with a question rather than 404. -/
theorem negative_page_wraps_around :
    paginate_questions (some (-1)) db11 ≠ []
      ∧ get_questions db11 [] (some (-1)) ≠ .err 404 := by
  constructor
  · decide
  · decide

/-- C2 (amended): page 0 always yields an empty slice (hence 404), but for
a strictly negative page the slice wraps around Python-style and is empty
iff the number of rows is at most 10*(-page); with more rows than that,
`GET /questions` with that negative page succeeds rather than 404s. -/
theorem paginate_nonpositive_page (selection : List Question) (page : Int)
    (hneg : page < 0) :
    paginate_questions (some 0) selection = []
      ∧ (paginate_questions (some page) selection = []
          ↔ (selection.length : Int) ≤ 10 * (-page)) := by
  constructor
  · unfold paginate_questions pySlice pyIndex
    rw [List.take_eq_nil_iff]
    left
    simp only [Option.getD_some, QUESTIONS_PER_PAGE, Nat.cast_ofNat]
    split_ifs <;> omega
  · unfold paginate_questions pySlice pyIndex
    rw [List.take_eq_nil_iff, List.drop_eq_nil_iff]
    simp only [Option.getD_some, QUESTIONS_PER_PAGE, Nat.cast_ofNat, List.length_map]
    split_ifs <;> omega

theorem paginate_nonpositive_page_witness :
    (-1 : Int) < 0
      ∧ (paginate_questions (some 0) db11 = []
          ∧ (paginate_questions (some (-1)) db11 = []
              ↔ (db11.length : Int) ≤ 10 * (-(-1)))) :=
  ⟨by norm_num, paginate_nonpositive_page db11 (-1) (by norm_num)⟩

/-- C7: `GET /questions` 404s exactly when the requested page slice is
empty — in particular for every page beyond the last — and otherwise
returns the page of formatted questions ordered by id, the unpaginated
total count, the category mapping, and a null current category. -/
theorem get_questions_spec (db : List Question) (cats : List Category) (p : Option Int) :
    (get_questions db cats p = .err 404 ↔ paginate_questions p (sortById db) = [])
    ∧ (∀ page : Int, 1 ≤ page → (db.length : Int) ≤ (page - 1) * 10 →
        get_questions db cats (some page) = .err 404)
    ∧ (∀ resp, get_questions db cats p = .ok resp →
        resp.questions = paginate_questions p (sortById db)
        ∧ resp.total_questions = db.length
        ∧ resp.categories = cats.map (fun c => (c.id, c.type))
        ∧ resp.current_category = none
        ∧ resp.questions.Pairwise (fun a b => a.id ≤ b.id)) := by
  refine ⟨?_, ?_, ?_⟩
  · unfold get_questions
    split_ifs with h
    · exact ⟨fun _ => List.length_eq_zero.mp h, fun _ => rfl⟩
    · exact ⟨fun hh => absurd hh (by simp), fun hh => absurd (by simp [hh]) h⟩
  · intro page hp hlast
    have hs : paginate_questions (some page) (sortById db) = [] := by
      unfold paginate_questions
      simp only [Option.getD_some, QUESTIONS_PER_PAGE, Nat.cast_ofNat]
      rw [pySlice_nonneg _ _ _ (by omega) (by omega),
        List.drop_eq_nil_of_le
          (by simp only [List.length_map, sortById_length]; omega),
        List.take_nil]
    simp [get_questions, hs]
  · intro resp hok
    unfold get_questions at hok
    split_ifs at hok with h
    rw [Resp.ok.injEq] at hok
    subst hok
    refine ⟨rfl, sortById_length db, rfl, rfl, ?_⟩
    have h1 : List.Sublist (paginate_questions p (sortById db))
        ((sortById db).map Question.format) := by
      unfold paginate_questions pySlice
      exact (List.take_sublist _ _).trans (List.drop_sublist _ _)
    have h2 : ((sortById db).map Question.format).Pairwise
        (fun a b : QJson => a.id ≤ b.id) := by
      rw [List.pairwise_map]
      exact sortById_sorted db
    exact List.Pairwise.sublist h1 h2

theorem get_questions_spec_witness :
    ((1:Int) ≤ 2 ∧ (([exQ 1].length : Int) ≤ ((2:Int) - 1) * 10))
      ∧ get_questions [exQ 1] [] (some 2) = .err 404 :=
  ⟨⟨by norm_num, by decide⟩,
    (get_questions_spec [exQ 1] [] none).2.1 2 (by norm_num) (by decide)⟩

/-! ### Helper lemmas about truthiness -/

theorem truthyStr_iff (o : Option String) :
    truthyStr o = true ↔ ∃ s, o = some s ∧ s ≠ "" := by
  cases o <;> simp [truthyStr]

theorem truthyInt_iff (o : Option Int) :
    truthyInt o = true ↔ ∃ n, o = some n ∧ n ≠ 0 := by
  cases o <;> simp [truthyInt]

/-- C3: `POST /questions` succeeds — inserting the row and answering with
the new id — exactly when all four body fields are present and truthy and
the insert does not fail; otherwise (any absent or falsy field, in
particular difficulty 0, or an insert failure) the response is 422 and
the database is unchanged. -/
theorem create_question_spec (db : List Question) (newId : Nat) (insertFails : Bool)
    (body : CreateBody) :
    ((create_question db newId insertFails body).1 = .ok newId
        ↔ ((∃ s, body.question = some s ∧ s ≠ "")
            ∧ (∃ s, body.answer = some s ∧ s ≠ "")
            ∧ (∃ s, body.category = some s ∧ s ≠ "")
            ∧ (∃ d, body.difficulty = some d ∧ d ≠ 0)
            ∧ insertFails = false))
    ∧ ((create_question db newId insertFails body).1 = .ok newId →
        (create_question db newId insertFails body).2
          = db ++ [⟨newId, body.question.getD "", body.answer.getD "",
              body.category.getD "", body.difficulty.getD 0⟩])
    ∧ ((create_question db newId insertFails body).1 ≠ .ok newId →
        (create_question db newId insertFails body).1 = .err 422
          ∧ (create_question db newId insertFails body).2 = db)
    ∧ (body.difficulty = some 0 →
        (create_question db newId insertFails body).1 = .err 422
          ∧ (create_question db newId insertFails body).2 = db) := by
  have hcond : (truthyStr body.question && truthyStr body.answer
      && truthyStr body.category && truthyInt body.difficulty) = true
      ↔ ((∃ s, body.question = some s ∧ s ≠ "")
          ∧ (∃ s, body.answer = some s ∧ s ≠ "")
          ∧ (∃ s, body.category = some s ∧ s ≠ "")
          ∧ (∃ d, body.difficulty = some d ∧ d ≠ 0)) := by
    simp only [Bool.and_eq_true, truthyStr_iff, truthyInt_iff]
    tauto
  by_cases hb : (truthyStr body.question && truthyStr body.answer
      && truthyStr body.category && truthyInt body.difficulty) = true
  · cases hf : insertFails with
    | false =>
        have hval : create_question db newId false body
            = (.ok newId, db ++ [⟨newId, body.question.getD "", body.answer.getD "",
                body.category.getD "", body.difficulty.getD 0⟩]) := by
          unfold create_question
          rw [if_neg (by simp [hb]), if_neg (by simp)]
        subst hf
        obtain ⟨e1, e2, e3, e4⟩ := hcond.mp hb
        refine ⟨?_, fun _ => by rw [hval], fun hne => absurd (by rw [hval]) hne, ?_⟩
        · rw [hval]
          exact iff_of_true rfl ⟨e1, e2, e3, e4, rfl⟩
        · intro h0
          rw [h0] at hb
          simp [truthyInt] at hb
    | true =>
        have hval : create_question db newId true body = (.err 422, db) := by
          unfold create_question
          rw [if_neg (by simp [hb]), if_pos rfl]
        subst hf
        refine ⟨?_, ?_, fun _ => by rw [hval]; exact ⟨rfl, rfl⟩,
          fun _ => by rw [hval]; exact ⟨rfl, rfl⟩⟩
        · rw [hval]
          exact iff_of_false (by simp) (by rintro ⟨_, _, _, _, hcontra⟩; cases hcontra)
        · intro hok
          rw [hval] at hok
          exact absurd hok (by simp)
  · have hb' : (truthyStr body.question && truthyStr body.answer
        && truthyStr body.category && truthyInt body.difficulty) = false := by
      revert hb
      cases truthyStr body.question && truthyStr body.answer
          && truthyStr body.category && truthyInt body.difficulty <;> simp
    have hval : create_question db newId insertFails body = (.err 422, db) := by
      unfold create_question
      rw [if_pos (by rw [hb']; rfl)]
    refine ⟨?_, ?_, fun _ => by rw [hval]; exact ⟨rfl, rfl⟩,
      fun _ => by rw [hval]; exact ⟨rfl, rfl⟩⟩
    · rw [hval]
      refine iff_of_false (by simp) ?_
      rintro ⟨e1, e2, e3, e4, _⟩
      exact hb (hcond.mpr ⟨e1, e2, e3, e4⟩)
    · intro hok
      rw [hval] at hok
      exact absurd hok (by simp)

theorem create_question_spec_witness :
    CreateBody.difficulty ⟨some "q", some "a", some "1", some 0⟩ = some 0
      ∧ ((create_question [] 1 false ⟨some "q", some "a", some "1", some 0⟩).1 = .err 422
          ∧ (create_question [] 1 false ⟨some "q", some "a", some "1", some 0⟩).2 = []) :=
  ⟨rfl, (create_question_spec [] 1 false ⟨some "q", some "a", some "1", some 0⟩).2.2.2 rfl⟩

/-- C5: `DELETE /questions/(id)` 404s when no row has the id; when one
does, a successful commit deletes it (a later lookup finds nothing) and
answers with the deleted id, and a failing commit rolls back — the state
is unchanged — and answers 422. -/
theorem delete_question_spec (db : List Question) (qid : Nat) (commitFails : Bool) :
    ((∀ q ∈ db, q.id ≠ qid) → delete_question db qid commitFails = (.err 404, db))
    ∧ ((∃ q ∈ db, q.id = qid) → commitFails = false →
        delete_question db qid commitFails
          = (.ok qid, db.filter (fun q => !(q.id == qid))))
    ∧ ((∃ q ∈ db, q.id = qid) → commitFails = true →
        delete_question db qid commitFails = (.err 422, db))
    ∧ (∀ q ∈ db.filter (fun q => !(q.id == qid)), q.id ≠ qid) := by
  refine ⟨?_, ?_, ?_, ?_⟩
  · intro hnone
    unfold delete_question
    rw [List.find?_eq_none.mpr (fun q hq => by simpa using hnone q hq)]
  · rintro ⟨q, hq, hid⟩ hf
    have hsome : (db.find? (fun q => q.id == qid)).isSome :=
      List.find?_isSome.mpr ⟨q, hq, by simp [hid]⟩
    obtain ⟨x, hx⟩ := Option.isSome_iff_exists.mp hsome
    unfold delete_question
    rw [hx, hf, if_neg (by simp)]
  · rintro ⟨q, hq, hid⟩ hf
    have hsome : (db.find? (fun q => q.id == qid)).isSome :=
      List.find?_isSome.mpr ⟨q, hq, by simp [hid]⟩
    obtain ⟨x, hx⟩ := Option.isSome_iff_exists.mp hsome
    unfold delete_question
    rw [hx, hf, if_pos rfl]
  · intro q hq
    simpa using (List.mem_filter.mp hq).2

theorem delete_question_spec_witness :
    ((∃ q ∈ [exQ 3], q.id = 3) ∧ (false : Bool) = false)
      ∧ delete_question [exQ 3] 3 false = (.ok 3, []) :=
  ⟨⟨⟨exQ 3, by simp, rfl⟩, rfl⟩,
    (delete_question_spec [exQ 3] 3 false).2.1 ⟨exQ 3, by simp, rfl⟩ rfl⟩

/-- C9: `GET /categories/(id)/questions` returns exactly the questions
whose category text equals the stringified requested id, with their count
and the requested id as current category; it 404s exactly when no
question's category matches. -/
theorem get_questions_by_category_spec (db : List Question) (cid : Nat) :
    (get_questions_by_category db cid = .err 404
        ↔ ∀ q ∈ db, q.category ≠ toString cid)
    ∧ (∀ resp, get_questions_by_category db cid = .ok resp →
        resp.questions
            = (db.filter (fun q => q.category == toString cid)).map Question.format
        ∧ resp.total_questions
            = (db.filter (fun q => q.category == toString cid)).length
        ∧ resp.current_category = cid
        ∧ (∀ qj ∈ resp.questions, ∃ q ∈ db, q.category = toString cid
              ∧ qj = Question.format q)
        ∧ (∀ q ∈ db, q.category = toString cid →
              Question.format q ∈ resp.questions)) := by
  constructor
  · unfold get_questions_by_category
    split_ifs with h
    · rw [List.length_eq_zero, List.filter_eq_nil_iff] at h
      exact iff_of_true rfl (fun q hq => by simpa using h q hq)
    · refine iff_of_false (by simp) ?_
      intro hall
      rw [List.length_eq_zero, List.filter_eq_nil_iff] at h
      exact h (fun q hq => by simpa using hall q hq)
  · intro resp hok
    unfold get_questions_by_category at hok
    split_ifs at hok with h
    rw [Resp.ok.injEq] at hok
    subst hok
    refine ⟨rfl, rfl, rfl, ?_, ?_⟩
    · intro qj hqj
      obtain ⟨q, hq, rfl⟩ := List.mem_map.mp hqj
      obtain ⟨hmem, hpred⟩ := List.mem_filter.mp hq
      exact ⟨q, hmem, by simpa using hpred, rfl⟩
    · intro q hq hcat
      exact List.mem_map.mpr ⟨q, List.mem_filter.mpr ⟨hq, by simp [hcat]⟩, rfl⟩

theorem get_questions_by_category_spec_witness :
    get_questions_by_category [exQ 7] 1 = .ok ⟨[Question.format (exQ 7)], 1, 1⟩
      ∧ ([Question.format (exQ 7)] = [Question.format (exQ 7)]
          ∧ (1 : Nat) = 1
          ∧ (1 : Nat) = 1
          ∧ (∀ qj ∈ [Question.format (exQ 7)],
              ∃ q ∈ [exQ 7], q.category = toString 1 ∧ qj = Question.format q)
          ∧ (∀ q ∈ [exQ 7], q.category = toString 1 →
              Question.format q ∈ [Question.format (exQ 7)])) :=
  ⟨by decide,
    (get_questions_by_category_spec [exQ 7] 1).2
      ⟨[Question.format (exQ 7)], 1, 1⟩ (by decide)⟩

/-- C1: on a successful `POST /quizzes` response the returned question, if
any, never has an id in `previous_questions`; and when every question in
scope (the chosen category for a truthy id, or all questions) is excluded
by `previous_questions`, the response is success with a null question. -/
theorem play_quiz_excludes_previous (db : List Question) (prev : List Nat)
    (i : Int) (k : Nat) :
    (∀ qj, play_quiz db prev (.withId i) k = .ok (some qj) → ¬ qj.id ∈ prev)
    ∧ ((∀ q ∈ db, (i ≠ 0 → q.category = toString i) → q.id ∈ prev) →
        play_quiz db prev (.withId i) k = .ok none) := by
  constructor
  · intro qj hok
    unfold play_quiz at hok
    rw [Resp.ok.injEq] at hok
    rcases Option.map_eq_some'.mp hok with ⟨q0, hq0, rfl⟩
    unfold pickRandom at hq0
    have hc := List.getElem?_mem hq0
    show ¬ q0.id ∈ prev
    intro hmem
    split_ifs at hc with hi
    · have hpred := (List.mem_filter.mp hc).2
      simp [hmem] at hpred
    · have hpred := (List.mem_filter.mp hc).2
      simp [hmem] at hpred
  · intro hall
    simp only [play_quiz]
    have hcand : (if i ≠ 0 then
        db.filter (fun q => q.category == toString i && !(prev.contains q.id))
        else db.filter (fun q => !(prev.contains q.id))) = [] := by
      split_ifs with hi
      · rw [List.filter_eq_nil_iff]
        intro q hq
        simp only [Bool.and_eq_true, not_and]
        intro hcat
        simpa using hall q hq (fun _ => by simpa using hcat)
      · rw [List.filter_eq_nil_iff]
        intro q hq
        simpa using hall q hq (fun hii => absurd hii hi)
    rw [hcand]
    rfl

theorem play_quiz_excludes_previous_witness :
    (play_quiz [exQ 1, exQ 2] [] (.withId 0) 0 = .ok (some (Question.format (exQ 1))) →
        ¬ (Question.format (exQ 1)).id ∈ ([] : List Nat))
      ∧ play_quiz [exQ 1] [1] (.withId 0) 5 = .ok none :=
  ⟨(play_quiz_excludes_previous [exQ 1, exQ 2] [] 0 0).1 (Question.format (exQ 1)),
    (play_quiz_excludes_previous [exQ 1] [1] 0 5).2 (by decide)⟩

/-- C4: `POST /quizzes` answers 422 when `quiz_category` is absent or has
no id key (the raised exception is caught); a falsy id — in particular 0 —
applies no category filter, drawing candidates from all questions not yet
seen; a truthy id restricts candidates to that category. -/
theorem play_quiz_category_dispatch (db : List Question) (prev : List Nat) (k : Nat) :
    play_quiz db prev .absent k = .err 422
    ∧ play_quiz db prev .noId k = .err 422
    ∧ play_quiz db prev (.withId 0) k
        = .ok ((pickRandom (db.filter (fun q => decide (¬ q.id ∈ prev))) k).map
            Question.format)
    ∧ (∀ i : Int, i ≠ 0 → play_quiz db prev (.withId i) k
        = .ok ((pickRandom (db.filter (fun q =>
            decide (q.category = toString i) && decide (¬ q.id ∈ prev))) k).map
              Question.format)) := by
  refine ⟨rfl, rfl, ?_, ?_⟩
  · simp only [play_quiz]
    rw [if_neg (by norm_num)]
    have hfe : db.filter (fun q => !(prev.contains q.id))
        = db.filter (fun q => decide (¬ q.id ∈ prev)) :=
      List.filter_congr (fun q _ => by rw [Bool.eq_iff_iff]; simp)
    rw [hfe]
  · intro i hi
    simp only [play_quiz]
    rw [if_pos hi]
    have hfe : db.filter (fun q => q.category == toString i && !(prev.contains q.id))
        = db.filter (fun q =>
            decide (q.category = toString i) && decide (¬ q.id ∈ prev)) :=
      List.filter_congr (fun q _ => by rw [Bool.eq_iff_iff]; simp)
    rw [hfe]

theorem play_quiz_category_dispatch_witness :
    (2:Int) ≠ 0
      ∧ play_quiz [exQ 1] [] (.withId 2) 0
          = .ok ((pickRandom ([exQ 1].filter (fun q =>
              decide (q.category = toString (2:Int)) && decide (¬ q.id ∈ ([] : List Nat)))) 0).map
                Question.format) :=
  ⟨by norm_num, (play_quiz_category_dispatch [exQ 1] [] 0).2.2.2 2 (by norm_num)⟩

/-! ### Helper lemmas about ILIKE matching -/

/-- The characters of a string, lowered: the case-insensitive view that
`ILIKE` compares. -/
def lowerChars (s : String) : List Char := s.data.map Char.toLower

/-- Does `p` occur at the head of `t`? -/
def prefCheck : List Char → List Char → Bool
  | [], _ => true
  | _ :: _, [] => false
  | a :: ps, b :: ts => a == b && prefCheck ps ts

/-- Does `p` occur contiguously anywhere in `t`? -/
def containsCheck (p : List Char) : List Char → Bool
  | [] => prefCheck p []
  | c :: ts => prefCheck p (c :: ts) || containsCheck p ts

theorem prefCheck_iff (p t : List Char) :
    prefCheck p t = true ↔ ∃ r, t = p ++ r := by
  induction p generalizing t with
  | nil => simp [prefCheck]
  | cons a ps ih =>
      cases t with
      | nil => simp [prefCheck]
      | cons b ts =>
          constructor
          · intro h
            rw [show prefCheck (a :: ps) (b :: ts) = (a == b && prefCheck ps ts)
                from rfl, Bool.and_eq_true, beq_iff_eq] at h
            obtain ⟨rfl, hp⟩ := h
            obtain ⟨r, rfl⟩ := (ih ts).mp hp
            exact ⟨r, rfl⟩
          · rintro ⟨r, hr⟩
            injection hr with h1 h2
            rw [show prefCheck (a :: ps) (b :: ts) = (a == b && prefCheck ps ts)
                from rfl, Bool.and_eq_true, beq_iff_eq]
            exact ⟨h1.symm, (ih ts).mpr ⟨r, h2⟩⟩

theorem containsCheck_iff (p t : List Char) :
    containsCheck p t = true ↔ ∃ l r, t = l ++ p ++ r := by
  induction t with
  | nil =>
      rw [show containsCheck p [] = prefCheck p [] from rfl, prefCheck_iff]
      constructor
      · rintro ⟨r, hr⟩
        exact ⟨[], r, hr⟩
      · rintro ⟨l, r, hr⟩
        obtain ⟨h1, rfl⟩ := List.append_eq_nil.mp hr.symm
        obtain ⟨rfl, rfl⟩ := List.append_eq_nil.mp h1
        exact ⟨[], rfl⟩
  | cons c ts ih =>
      rw [show containsCheck p (c :: ts)
          = (prefCheck p (c :: ts) || containsCheck p ts) from rfl,
        Bool.or_eq_true, prefCheck_iff, ih]
      constructor
      · rintro (⟨r, hr⟩ | ⟨l, r, hr⟩)
        · exact ⟨[], r, hr⟩
        · exact ⟨c :: l, r, by rw [hr]; rfl⟩
      · rintro ⟨l, r, hr⟩
        cases l with
        | nil => exact Or.inl ⟨r, hr⟩
        | cons c' l' =>
            injection hr with h1 h2
            exact Or.inr ⟨l', r, h2⟩

theorem mem_tails_iff (s t : List α) : s ∈ t.tails ↔ ∃ l, t = l ++ s := by
  induction t with
  | nil =>
      simp only [List.tails, List.mem_singleton]
      constructor
      · rintro rfl
        exact ⟨[], rfl⟩
      · rintro ⟨l, hl⟩
        exact (List.append_eq_nil.mp hl.symm).2
  | cons c ts ih =>
      rw [show (c :: ts).tails = (c :: ts) :: ts.tails from by simp [List.tails],
        List.mem_cons, ih]
      constructor
      · rintro (rfl | ⟨l, rfl⟩)
        · exact ⟨[], rfl⟩
        · exact ⟨c :: l, rfl⟩
      · rintro ⟨l, hl⟩
        cases l with
        | nil => exact Or.inl hl.symm
        | cons c' l' =>
            injection hl with h1 h2
            exact Or.inr ⟨l', h2⟩

theorem likeMatch_nil_pct (t : List Char) : likeMatch ['%'] t = true := by
  rw [show likeMatch ['%'] t = t.tails.any (fun t2 => likeMatch [] t2)
      from by simp [likeMatch], List.any_eq_true]
  exact ⟨[], (mem_tails_iff [] t).mpr ⟨t, by simp⟩, by simp [likeMatch]⟩

theorem likeMatch_cons_pct (p t : List Char) :
    likeMatch ('%' :: p) t = true
      ↔ ∃ l t2, t = l ++ t2 ∧ likeMatch p t2 = true := by
  rw [show likeMatch ('%' :: p) t = t.tails.any (fun t2 => likeMatch p t2)
      from by simp [likeMatch], List.any_eq_true]
  constructor
  · rintro ⟨t2, hmem, hm⟩
    obtain ⟨l, rfl⟩ := (mem_tails_iff t2 t).mp hmem
    exact ⟨l, t2, rfl, hm⟩
  · rintro ⟨l, t2, rfl, hm⟩
    exact ⟨t2, (mem_tails_iff t2 _).mpr ⟨l, rfl⟩, hm⟩

theorem likeMatch_lit_pct (p : List Char) (hw : ∀ c ∈ p, c ≠ '%' ∧ c ≠ '_')
    (t : List Char) :
    likeMatch (p ++ ['%']) t = true
      ↔ ∃ r, t.map Char.toLower = p.map Char.toLower ++ r := by
  induction p generalizing t with
  | nil =>
      rw [List.nil_append, likeMatch_nil_pct]
      simp
  | cons a ps ih =>
      have ha := hw a (List.mem_cons_self a ps)
      have hw' : ∀ c ∈ ps, c ≠ '%' ∧ c ≠ '_' :=
        fun c hc => hw c (List.mem_cons_of_mem a hc)
      cases t with
      | nil =>
          rw [show likeMatch ((a :: ps) ++ ['%']) [] = false
              from by simp [likeMatch, ha.1]]
          simp
      | cons c ts =>
          rw [show likeMatch ((a :: ps) ++ ['%']) (c :: ts)
              = ((if a = '_' then true else Char.toLower a == Char.toLower c)
                  && likeMatch (ps ++ ['%']) ts) from by simp [likeMatch, ha.1],
            if_neg ha.2, Bool.and_eq_true, beq_iff_eq, ih hw']
          simp only [List.map_cons, List.cons_append]
          constructor
          · rintro ⟨hac, r, hr⟩
            exact ⟨r, by simp [hac, hr]⟩
          · rintro ⟨r, hr⟩
            injection hr with h1 h2
            exact ⟨h1.symm, r, h2⟩

theorem likeMatch_pct_iff_contains (p t : List Char)
    (hw : ∀ c ∈ p, c ≠ '%' ∧ c ≠ '_') :
    likeMatch ('%' :: p ++ ['%']) t = true
      ↔ containsCheck (p.map Char.toLower) (t.map Char.toLower) = true := by
  rw [List.cons_append, likeMatch_cons_pct, containsCheck_iff]
  constructor
  · rintro ⟨l, t2, rfl, hm⟩
    obtain ⟨r, hr⟩ := (likeMatch_lit_pct p hw t2).mp hm
    exact ⟨l.map Char.toLower, r, by simp [hr]⟩
  · rintro ⟨l, r, hr⟩
    obtain ⟨t1, t2, rfl, h1, h2⟩ := List.map_eq_append_iff.mp
      (show t.map Char.toLower = l ++ (p.map Char.toLower ++ r)
        from by rw [hr, List.append_assoc])
    exact ⟨t1, t2, rfl, (likeMatch_lit_pct p hw t2).mpr ⟨r, h2⟩⟩

/-- The question row of the search counterexample. -/
def qXyz : Question := ⟨1, "xyz", "a", "1", 1⟩

/-- C8 counterexample: the search term `x_z` — `_` is a SQL LIKE wildcard
that survives into the ILIKE pattern — makes the endpoint return the
question with text `xyz`, although `x_z` is not a case-insensitive
substring of `xyz`.  So the result set is not exactly the substring
matches. -/
theorem search_wildcard_cex :
    (search_questions [qXyz] (some "x_z")).questions = [Question.format qXyz]
      ∧ ¬ ∃ l r, lowerChars "xyz" = l ++ lowerChars "x_z" ++ r := by
  constructor
  · decide
  · intro h
    exact absurd
      ((containsCheck_iff (lowerChars "x_z") (lowerChars "xyz")).mpr h)
      (by decide)

/-- C8 (amended): for search terms containing no SQL LIKE wildcard
character (`%` or `_`), `POST /questions/search` returns exactly the
questions whose text contains the term as a case-insensitive substring,
with `total_questions` the number of matches, unpaginated, and always as
a success — the result type has no error case — even when no question
matches; terms containing a wildcard are matched with SQL LIKE wildcard
semantics instead. -/
theorem search_questions_substring (db : List Question) (term : String)
    (hw : ∀ c ∈ term.data, c ≠ '%' ∧ c ≠ '_') :
    (search_questions db (some term)).questions
        = (db.filter (fun q =>
            containsCheck (lowerChars term) (lowerChars q.question))).map
              Question.format
    ∧ (search_questions db (some term)).total_questions
        = (db.filter (fun q =>
            containsCheck (lowerChars term) (lowerChars q.question))).length
    ∧ (∀ p t : List Char, containsCheck p t = true ↔ ∃ l r, t = l ++ p ++ r) := by
  have hfe : db.filter (fun q =>
      likeMatch ('%' :: ((some term).getD "").data ++ ['%']) q.question.data)
      = db.filter (fun q =>
          containsCheck (lowerChars term) (lowerChars q.question)) := by
    apply List.filter_congr
    intro q _
    rw [Bool.eq_iff_iff]
    exact likeMatch_pct_iff_contains term.data q.question.data hw
  refine ⟨?_, ?_, containsCheck_iff⟩
  · unfold search_questions
    rw [hfe]
  · unfold search_questions
    rw [hfe]

theorem search_questions_substring_witness :
    (∀ c ∈ "Xy".data, c ≠ '%' ∧ c ≠ '_')
      ∧ ((search_questions [qXyz] (some "Xy")).questions
            = ([qXyz].filter (fun q =>
                containsCheck (lowerChars "Xy") (lowerChars q.question))).map
                  Question.format
          ∧ (search_questions [qXyz] (some "Xy")).total_questions
            = ([qXyz].filter (fun q =>
                containsCheck (lowerChars "Xy") (lowerChars q.question))).length
          ∧ (∀ p t : List Char, containsCheck p t = true ↔ ∃ l r, t = l ++ p ++ r)) :=
  ⟨by decide, search_questions_substring [qXyz] "Xy" (by decide)⟩

/-- C10: when `searchTerm` is absent from the body or is the empty string,
the ILIKE pattern degenerates to two percent signs, which match every
question text, so the endpoint succeeds and returns every question in the
database with the full count. -/
theorem search_questions_empty_term (db : List Question) :
    search_questions db none = ⟨db.map Question.format, db.length⟩
    ∧ search_questions db (some "") = ⟨db.map Question.format, db.length⟩ := by
  have hall : ∀ t : List Char, likeMatch ('%' :: ([] : List Char) ++ ['%']) t = true := by
    intro t
    rw [List.cons_append, likeMatch_cons_pct]
    exact ⟨[], t, rfl, likeMatch_nil_pct t⟩
  constructor
  · have hfilter : db.filter (fun q =>
        likeMatch ('%' :: ((none : Option String).getD "").data ++ ['%'])
          q.question.data) = db :=
      List.filter_eq_self.mpr (fun q _ => hall q.question.data)
    unfold search_questions
    rw [hfilter]
  · have hfilter : db.filter (fun q =>
        likeMatch ('%' :: ((some "").getD "").data ++ ['%'])
          q.question.data) = db :=
      List.filter_eq_self.mpr (fun q _ => hall q.question.data)
    unfold search_questions
    rw [hfilter]

end Trivia
